import Mathlib

/-!
Verification of the checksum/trailer subsystem of cppimport
(`cppimport/checksum.py`).

Shallow embedding conventions:
* a Python `bytes` value is a `List Nat` of byte values (`ByteStr`);
* a Python `str` is a `List Nat` of Unicode code points (`PyStr`) —
  Python strings may contain lone surrogates, so code points range over
  `0 ..= 0x10FFFF` including the surrogate block;
* the filesystem seen by `open(path, "rb")` is a partial map
  `FS : PyStr → Option ByteStr` (`none` = missing/unreadable, which `open`
  reports as `OSError`);
* fallible Python code returns `Except PyErr _`; exceptions that a
  `try/except` swallows are turned back into values at the catch site,
  exactly as in the source;
* `hashlib.md5` is kept abstract: `h.update` concatenates onto the byte
  stream fed to the hash, and the final `h.hexdigest()` is an arbitrary
  parameter `md5hex : ByteStr → PyStr` applied to the whole stream
  (md5's streaming API guarantees the digest depends only on the
  concatenation of the updates);
* the ambient environment key tuple (`cppimport.__version__`, …,
  `os.environ.get("CXXFLAGS")`) and its `repr(...).encode()` are ambient
  process state, modelled by a parameter `keyBytes : ByteStr`.
-/

/-- Python exception classes relevant to `checksum.py`.  `osError` covers
`OSError` and its subclass `FileNotFoundError` (the source treats both the
same way); `valueError` covers `ValueError` and its subclasses
(`json.JSONDecodeError`, `UnicodeDecodeError`, `UnicodeEncodeError`);
`structError` is `struct.error`; `typeError` is `TypeError`. -/
inductive PyErr where
  | osError
  | valueError
  | typeError
  | structError
deriving DecidableEq

/-- A Python `bytes` value: a list of byte values. -/
abbrev ByteStr := List Nat

/-- A Python `str` value: a list of Unicode code points (surrogates allowed). -/
abbrev PyStr := List Nat

/-- The filesystem visible to `open(path, "rb")`: `none` means the path is
missing or unreadable (an `OSError` on open/read). -/
abbrev FS := PyStr → Option ByteStr

/-- `_TAG = b"cppimport"` — the magic tag of the trailer footer. -/
def TAGbytes : ByteStr := [99, 112, 112, 105, 109, 112, 111, 114, 116]

/-- `struct.pack(">q", n)`: 8-byte big-endian encoding (for the file-length
prefix fed to the hash; actual lengths are below `2^63` so the sign never
shows). -/
def packBE8 (n : Nat) : ByteStr :=
  [n / 72057594037927936 % 256, n / 281474976710656 % 256,
   n / 1099511627776 % 256, n / 4294967296 % 256,
   n / 16777216 % 256, n / 65536 % 256, n / 256 % 256, n % 256]

/-- The low 8 bytes of `n` in native (x86, little-endian) order: the `q`
field of `struct.Struct("q9s")` as written by `_FMT.pack`. -/
def packLE8 (n : Nat) : ByteStr :=
  [n % 256, n / 256 % 256, n / 65536 % 256, n / 16777216 % 256,
   n / 4294967296 % 256, n / 1099511627776 % 256,
   n / 281474976710656 % 256, n / 72057594037927936 % 256]

/-- Decode 8 native-order (little-endian) bytes as the signed 64-bit `q`
field of `_FMT.unpack`. -/
def unpackLE8s : ByteStr → Int
  | [b0, b1, b2, b3, b4, b5, b6, b7] =>
    let u : Nat := b0 + b1 * 256 + b2 * 65536 + b3 * 16777216 +
      b4 * 4294967296 + b5 * 1099511627776 + b6 * 281474976710656 +
      b7 * 72057594037927936
    if u < 9223372036854775808 then (u : Int) else (u : Int) - 18446744073709551616
  | _ => 0

/-- The values Python's `json` module decodes to (`obj` keeps members in
parse order; duplicate keys are resolved by `jsonDict` below). -/
inductive JValue where
  | null
  | bool (b : Bool)
  | num (raw : PyStr)
  | str (s : PyStr)
  | arr (elems : List JValue)
  | obj (members : List (PyStr × JValue))

/-- Lowercase hex digit character for a value below 16. -/
def hexDigitChar (n : Nat) : Nat := if n < 10 then 48 + n else 87 + n

/-- Four lowercase hex digit characters of `n % 0x10000`, as emitted by the
`\uXXXX` escapes of `json.dumps(..., ensure_ascii=True)`. -/
def hex4 (n : Nat) : List Nat :=
  [hexDigitChar (n / 4096 % 16), hexDigitChar (n / 256 % 16),
   hexDigitChar (n / 16 % 16), hexDigitChar (n % 16)]

/-- The characters `json.dumps` (default `ensure_ascii=True`) emits for one
code point of a string: `"` and `\` and the controls with short escapes are
escaped as two characters, other controls and every code point from `0x7F`
up to `0xFFFF` as `\uXXXX`, and astral code points as a `\uXXXX\uXXXX`
UTF-16 surrogate pair; code points `0x20 ..= 0x7E` pass through. -/
def escChar (c : Nat) : List Nat :=
  if c = 34 then [92, 34]
  else if c = 92 then [92, 92]
  else if c = 8 then [92, 98]
  else if c = 9 then [92, 116]
  else if c = 10 then [92, 110]
  else if c = 12 then [92, 102]
  else if c = 13 then [92, 114]
  else if c < 32 then 92 :: 117 :: hex4 c
  else if c < 127 then [c]
  else if c < 65536 then 92 :: 117 :: hex4 c
  else 92 :: 117 :: (hex4 (55296 + (c - 65536) / 1024) ++
       (92 :: 117 :: hex4 (56320 + (c - 65536) % 1024)))

/-- Body of the JSON string literal for `s` (no surrounding quotes). -/
def escBody (s : PyStr) : List Nat := (s.map escChar).flatten

/-- The JSON string literal for `s`, quotes included. -/
def jsonQuote (s : PyStr) : List Nat := 34 :: (escBody s ++ [34])

/-- Join with the default `json.dumps` item separator `", "`. -/
def sepJoin : List (List Nat) → List Nat
  | [] => []
  | [x] => x
  | x :: y :: rest => x ++ (44 :: 32 :: sepJoin (y :: rest))

/-- `json.dumps` of a list of strings (the dependency list). -/
def dumpsStrList (xs : List PyStr) : List Nat :=
  91 :: (sepJoin (xs.map jsonQuote) ++ [93])

/-- `json.dumps([dep_filepaths, cur_checksum])` with the default separators:
the exact character sequence serialized into the trailer payload. -/
def dumpsPair (deps : List PyStr) (digest : PyStr) : List Nat :=
  91 :: (dumpsStrList deps ++ (44 :: 32 :: (jsonQuote digest ++ [93])))

/-- `str.encode("ascii")`: identity on the code points when they are all
ASCII, `UnicodeEncodeError` (a `ValueError`) otherwise. -/
def pyEncodeAscii (s : PyStr) : Except PyErr ByteStr :=
  if s.all (· < 128) then .ok s else .error .valueError

/-- `_save_checksum_trailer(module_data, dep_filepaths, cur_checksum)`:
appends `json.dumps([dep_filepaths, cur_checksum]).encode("ascii")` followed
by `_FMT.pack(len(dump), _TAG)` to the artifact bytes.  `struct` raises
`struct.error` if the payload length overflows the signed 64-bit `q`. -/
def _save_checksum_trailer (content : ByteStr) (deps : List PyStr)
    (digest : PyStr) : Except PyErr ByteStr :=
  match pyEncodeAscii (dumpsPair deps digest) with
  | .error e => .error e
  | .ok dump =>
    if dump.length < 9223372036854775808 then
      .ok (content ++ dump ++ (packLE8 dump.length ++ TAGbytes))
    else .error .structError

/-- Decode one UTF-8-encoded code point given its first byte and the
remaining bytes.  Rejects stray/missing continuation bytes, overlong
forms, surrogates and values above `0x10FFFF`. -/
def utf8Step (b : Nat) (rest : ByteStr) : Option (Nat × ByteStr) :=
  if b < 128 then some (b, rest)
  else if b < 194 then none
  else if b < 224 then
    match rest with
    | b2 :: rest2 =>
      if 128 ≤ b2 ∧ b2 < 192 then some ((b - 192) * 64 + (b2 - 128), rest2)
      else none
    | [] => none
  else if b < 240 then
    match rest with
    | b2 :: b3 :: rest2 =>
      if 128 ≤ b2 ∧ b2 < 192 ∧ 128 ≤ b3 ∧ b3 < 192 then
        let c := (b - 224) * 4096 + (b2 - 128) * 64 + (b3 - 128)
        if 2048 ≤ c ∧ ¬(55296 ≤ c ∧ c < 57344) then some (c, rest2)
        else none
      else none
    | _ => none
  else if b < 245 then
    match rest with
    | b2 :: b3 :: b4 :: rest2 =>
      if 128 ≤ b2 ∧ b2 < 192 ∧ 128 ≤ b3 ∧ b3 < 192 ∧ 128 ≤ b4 ∧ b4 < 192 then
        let c := (b - 240) * 262144 + (b2 - 128) * 4096 + (b3 - 128) * 64 + (b4 - 128)
        if 65536 ≤ c ∧ c < 1114112 then some (c, rest2)
        else none
      else none
    | _ => none
  else none

/-- The decoding loop: one code point per step.  The fuel only bounds the
recursion; every step consumes at least the lead byte, so the
`length + 1` fuel `utf8Decode` supplies never runs out. -/
def utf8Go : Nat → ByteStr → Option PyStr
  | 0, _ => none
  | _, [] => some []
  | fuel + 1, b :: rest =>
    match utf8Step b rest with
    | some (c, rest2) => (utf8Go fuel rest2).map (c :: ·)
    | none => none

/-- Strict UTF-8 decoding, as `bytes.decode("utf-8")` inside `json.loads`
after encoding detection (trailer payloads without a BOM or embedded NUL
pattern are decoded as UTF-8; every payload appearing in the theorems below
is plain ASCII).  Any failure is a `UnicodeDecodeError`, i.e. a
`ValueError`. -/
def utf8Decode (bs : ByteStr) : Option PyStr := utf8Go (bs.length + 1) bs

/-- Skip the JSON whitespace characters (space, tab, newline, carriage
return), as the `_w` regex of `json.decoder` does. -/
def skipWs : PyStr → PyStr
  | c :: rest => if c = 32 ∨ c = 9 ∨ c = 10 ∨ c = 13 then skipWs rest else c :: rest
  | [] => []

/-- Value of one hex digit character (either case), `none` otherwise. -/
def hexDigitVal (c : Nat) : Option Nat :=
  if 48 ≤ c ∧ c ≤ 57 then some (c - 48)
  else if 97 ≤ c ∧ c ≤ 102 then some (c - 87)
  else if 65 ≤ c ∧ c ≤ 70 then some (c - 55)
  else none

/-- Read exactly four hex digit characters (`_decode_uXXXX`). -/
def hex4At : PyStr → Option (Nat × PyStr)
  | a :: b :: c :: d :: r =>
    match hexDigitVal a, hexDigitVal b, hexDigitVal c, hexDigitVal d with
    | some va, some vb, some vc, some vd =>
      some (va * 4096 + vb * 256 + vc * 16 + vd, r)
    | _, _, _, _ => none
  | _ => none

/-- After a high surrogate escape, `json`'s scanner peeks for a following
`\uXXXX` escape denoting a low surrogate; this recognizes exactly that. -/
def lowEscHead : PyStr → Option (Nat × PyStr)
  | a :: b :: r =>
    if a = 92 ∧ b = 117 then
      match hex4At r with
      | some (l, r2) => if 56320 ≤ l ∧ l < 57344 then some (l, r2) else none
      | none => none
    else none
  | _ => none

/-- The `\uXXXX` escape handler of `py_scanstring`: read four hex digits;
a high-surrogate value immediately followed by another `\uXXXX` escape
holding a low surrogate is recombined into the astral code point the pair
encodes; otherwise the (possibly lone-surrogate) value stands alone. -/
def parseEscU (r : PyStr) : Option (Nat × PyStr) :=
  match hex4At r with
  | some (h, r2) =>
    if 55296 ≤ h ∧ h < 56320 then
      match lowEscHead r2 with
      | some lp => some (65536 + (h - 55296) * 1024 + (lp.1 - 56320), lp.2)
      | none => some (h, r2)
    else some (h, r2)
  | none => none

/-- Decode the characters after a backslash inside a JSON string literal:
the short escapes, or `\uXXXX` with surrogate-pair recombination when a
high-surrogate escape is immediately followed by a low-surrogate escape
(`py_scanstring`/`c_scanstring` behavior). -/
def parseEsc : PyStr → Option (Nat × PyStr)
  | [] => none
  | e :: r =>
    if e = 34 then some (34, r)
    else if e = 92 then some (92, r)
    else if e = 47 then some (47, r)
    else if e = 98 then some (8, r)
    else if e = 102 then some (12, r)
    else if e = 110 then some (10, r)
    else if e = 114 then some (13, r)
    else if e = 116 then some (9, r)
    else if e = 117 then parseEscU r
    else none

/-- Scan a JSON string literal body up to the closing quote, decoding
escapes; unescaped control characters are rejected (`strict=True`).  The
fuel only bounds recursion depth; `fuel ≥ length of the input + 1` always
suffices since every step consumes at least one character. -/
def parseStringBody : Nat → PyStr → Option (PyStr × PyStr)
  | 0, _ => none
  | fuel + 1, s =>
    match s with
    | [] => none
    | c :: rest =>
      if c = 34 then some ([], rest)
      else if c = 92 then
        match parseEsc rest with
        | some (ch, rest2) => (parseStringBody fuel rest2).map (fun p => (ch :: p.1, p.2))
        | none => none
      else if c < 32 then none
      else (parseStringBody fuel rest).map (fun p => (c :: p.1, p.2))

/-- Longest prefix of ASCII decimal digits. -/
def takeDigits : PyStr → PyStr × PyStr
  | c :: rest =>
    if 48 ≤ c ∧ c ≤ 57 then
      let p := takeDigits rest
      (c :: p.1, p.2)
    else ([], c :: rest)
  | [] => ([], [])

/-- The integer part of json's `NUMBER_RE`: `-?(0|[1-9][0-9]*)` without the
sign. -/
def parseIntPart : PyStr → Option (PyStr × PyStr)
  | 48 :: rest => some ([48], rest)
  | c :: rest =>
    if 49 ≤ c ∧ c ≤ 57 then
      let p := takeDigits rest
      some (c :: p.1, p.2)
    else none
  | [] => none

/-- The optional fraction group `(\.[0-9]+)?`. -/
def parseFrac (s : PyStr) : PyStr × PyStr :=
  match s with
  | 46 :: rest =>
    match takeDigits rest with
    | ([], _) => ([], s)
    | (ds, r) => (46 :: ds, r)
  | _ => ([], s)

/-- The optional exponent group `([eE][-+]?[0-9]+)?`. -/
def parseExp (s : PyStr) : PyStr × PyStr :=
  match s with
  | e :: sign :: rest =>
    if e = 101 ∨ e = 69 then
      if sign = 43 ∨ sign = 45 then
        match takeDigits rest with
        | ([], _) => ([], s)
        | (ds, r) => (e :: sign :: ds, r)
      else
        match takeDigits (sign :: rest) with
        | ([], _) => ([], s)
        | (ds, r) => (e :: ds, r)
    else ([], s)
  | [e] =>
    if e = 101 ∨ e = 69 then ([], s) else ([], s)
  | _ => ([], s)

/-- A JSON number match at the head of the input (sign, integer part,
optional fraction and exponent), returning the raw matched characters. -/
def parseNumber (s : PyStr) : Option (PyStr × PyStr) :=
  match s with
  | 45 :: rest =>
    (parseIntPart rest).map (fun p =>
      let f := parseFrac p.2
      let e := parseExp f.2
      (45 :: p.1 ++ f.1 ++ e.1, e.2))
  | _ =>
    (parseIntPart s).map (fun p =>
      let f := parseFrac p.2
      let e := parseExp f.2
      (p.1 ++ f.1 ++ e.1, e.2))

/-- Python `dict` construction from parsed key/value pairs: a repeated key
overwrites the value at its first position (insertion order preserved). -/
def jsonDict : List (PyStr × JValue) → List (PyStr × JValue)
  | [] => []
  | (k, v) :: rest =>
    let tail := jsonDict rest
    if tail.any (fun m => m.1 = k) then
      (k, v) :: (tail.filter (fun m => m.1 ≠ k))
    else (k, v) :: tail

/-- Recognize the remaining characters of a literal constant (`null`,
`true`, `false`, `NaN`, `Infinity`) after its first character. -/
def parseLit (lit : PyStr) (val : JValue) (rest : PyStr) : Option (JValue × PyStr) :=
  if rest.take lit.length = lit then some (val, rest.drop lit.length) else none

/-- After `[` and leading whitespace: an immediate `]` is the empty array,
anything else starts the element loop (`JSONArray`). -/
def parseArrTail (goElems : PyStr → Option (List JValue × PyStr)) (w : PyStr) :
    Option (JValue × PyStr) :=
  match w with
  | 93 :: r => some (.arr [], r)
  | r => (goElems r).map (fun p => (JValue.arr p.1, p.2))

/-- After `{` and leading whitespace: an immediate `}` is the empty object,
anything else starts the member loop (`JSONObject`). -/
def parseObjTail (goMembers : PyStr → Option (List (PyStr × JValue) × PyStr))
    (w : PyStr) : Option (JValue × PyStr) :=
  match w with
  | 125 :: r => some (.obj [], r)
  | r => (goMembers r).map (fun p => (JValue.obj (jsonDict p.1), p.2))

/-- After one array element: `,` continues the loop past whitespace, `]`
closes the array, anything else is a `ValueError`. -/
def parseElemsTail (goElems : PyStr → Option (List JValue × PyStr)) (v : JValue)
    (w : PyStr) : Option (List JValue × PyStr) :=
  match w with
  | c :: r2 =>
    if c = 44 then (goElems (skipWs r2)).map (fun q => (v :: q.1, q.2))
    else if c = 93 then some ([v], r2)
    else none
  | [] => none

mutual

/-- One JSON value at the head of the input (`scan_once`): string, object,
array, the literal constants, a number, or the non-standard `NaN` /
`Infinity` / `-Infinity` constants which `json.loads` accepts by default.
The fuel bounds container-nesting recursion only; `json.loads` supplies
more fuel than any input it does not reject can consume. -/
def parseValue : Nat → PyStr → Option (JValue × PyStr)
  | 0, _ => none
  | fuel + 1, s =>
    match s with
    | [] => none
    | c :: rest =>
      if c = 34 then
        (parseStringBody (rest.length + 1) rest).map (fun p => (JValue.str p.1, p.2))
      else if c = 123 then parseObjTail (parseMembers fuel) (skipWs rest)
      else if c = 91 then parseArrTail (parseElems fuel) (skipWs rest)
      else if c = 110 then parseLit [117, 108, 108] .null rest
      else if c = 116 then parseLit [114, 117, 101] (.bool true) rest
      else if c = 102 then parseLit [97, 108, 115, 101] (.bool false) rest
      else if c = 78 then parseLit [97, 78] (.num [78, 97, 78]) rest
      else if c = 73 then
        parseLit [110, 102, 105, 110, 105, 116, 121]
          (.num [73, 110, 102, 105, 110, 105, 116, 121]) rest
      else if c = 45 ∧ rest.take 8 = [73, 110, 102, 105, 110, 105, 116, 121] then
        some (.num [45, 73, 110, 102, 105, 110, 105, 116, 121], rest.drop 8)
      else
        (parseNumber (c :: rest)).map (fun p => (.num p.1, p.2))

/-- The element loop of `JSONArray` after the opening bracket and leading
whitespace, for a non-empty array: value, then `,` (more) or `]` (done),
skipping whitespace around separators. -/
def parseElems : Nat → PyStr → Option (List JValue × PyStr)
  | 0, _ => none
  | fuel + 1, s =>
    (parseValue fuel s).bind (fun p =>
      parseElemsTail (parseElems fuel) p.1 (skipWs p.2))

/-- The member loop of `JSONObject` for a non-empty object: a string key,
`:`, a value, then `,` (more members) or `}` (done). -/
def parseMembers : Nat → PyStr → Option (List (PyStr × JValue) × PyStr)
  | 0, _ => none
  | fuel + 1, s =>
    match s with
    | 34 :: rest =>
      match parseStringBody (rest.length + 1) rest with
      | none => none
      | some (k, r) =>
        match skipWs r with
        | 58 :: r2 =>
          match parseValue fuel (skipWs r2) with
          | none => none
          | some (v, r3) =>
            match skipWs r3 with
            | 44 :: r4 => (parseMembers fuel (skipWs r4)).map (fun p => ((k, v) :: p.1, p.2))
            | 125 :: r4 => some ([(k, v)], r4)
            | _ => none
        | _ => none
    | _ => none

end

/-- `json.loads(json_s)` on a bytes object: decode (UTF-8 for payloads
without a BOM or UTF-16/32 NUL pattern — all payloads reasoned about here
are ASCII), skip surrounding whitespace, scan exactly one value, and
reject trailing garbage.  `none` is any `ValueError`
(`UnicodeDecodeError` or `json.JSONDecodeError`). -/
def loads (bs : ByteStr) : Option JValue :=
  (utf8Decode bs).bind (fun s =>
    (parseValue ((skipWs s).length + 1) (skipWs s)).bind (fun p =>
      if skipWs p.2 = [] then some p.1 else none))

/-- Python iterable unpacking `a, b = v` applied to a `json.loads` result:
a two-element list, a two-character string, or a two-key dict unpack;
sequences of other lengths raise `ValueError`; `None`, booleans and numbers
are not iterable and raise `TypeError`. -/
def unpack2 : JValue → Except PyErr (JValue × JValue)
  | .arr [a, b] => .ok (a, b)
  | .arr _ => .error .valueError
  | .str [a, b] => .ok (.str [a], .str [b])
  | .str _ => .error .valueError
  | .obj [(k1, _), (k2, _)] => .ok (.str k1, .str k2)
  | .obj _ => .error .valueError
  | _ => .error .typeError

/-- Decode the payload bytes read from the trailer: `json.loads` errors
(`ValueError`) are caught and yield `(None, None)`; so are tuple-unpack
`ValueError`s; but unpacking a non-iterable decoded value raises an
uncaught `TypeError`. -/
def decodePayload (json_s : ByteStr) : Except PyErr (Option (JValue × JValue)) :=
  match loads json_s with
  | none => .ok none
  | some v =>
    match unpack2 v with
    | .error .valueError => .ok none
    | .error e => .error e
    | .ok pr => .ok (some pr)

/-- `f.seek(-(_FMT.size + json_len), 2); f.read(json_len)`: the seek target
is `size - 17 - json_len` (checked non-negative by the caller; a position
at or past EOF just truncates the read), and `read` with a negative count
reads to EOF. -/
def readPayload (content : ByteStr) (json_len : Int) : ByteStr :=
  if json_len < 0 then content.drop ((content.length : Int) - 17 - json_len).toNat
  else (content.drop ((content.length : Int) - 17 - json_len).toNat).take json_len.toNat

/-- The second seek of `_load_checksum_trailer`: a negative target position
raises `OSError`, caught and mapped to `(None, None)`. -/
def seekPayload (content : ByteStr) (json_len : Int) :
    Except PyErr (Option (JValue × JValue)) :=
  if (content.length : Int) - 17 - json_len < 0 then .ok none
  else decodePayload (readPayload content json_len)

/-- `json_len, tag = _FMT.unpack(f.read(_FMT.size))`: a wrong magic tag
yields `(None, None)`, otherwise the signed payload length is decoded and
the payload is sought and read. -/
def checkTag (content footer : ByteStr) : Except PyErr (Option (JValue × JValue)) :=
  if footer.drop 8 ≠ TAGbytes then .ok none
  else seekPayload content (unpackLE8s (footer.take 8))

/-- `_load_checksum_trailer(module_data)`.  The artifact file is `none`
when `open` raises `FileNotFoundError` (caught → `(None, None)`).  With the
file contents in hand, `f.seek(-_FMT.size, 2)` raises `OSError` (caught)
when the file is shorter than the 17-byte footer; otherwise the last 17
bytes form the fixed footer and `checkTag` continues. -/
def _load_checksum_trailer (artifact : Option ByteStr) :
    Except PyErr (Option (JValue × JValue)) :=
  match artifact with
  | none => .ok none
  | some content =>
    if content.length < 17 then .ok none
    else checkTag content (content.drop (content.length - 17))

/-- `open(filepath, "rb")` followed by `f.read()`: a string path maps to
the file's bytes (`OSError` when missing/unreadable); passing a non-string
value where `open` expects a path raises `TypeError`. -/
def pyOpen (fs : FS) : JValue → Except PyErr ByteStr
  | .str p =>
    match fs p with
    | some bs => .ok bs
    | none => .error .osError
  | _ => .error .typeError

/-- Python's `for _ in v` over a `json.loads` result: lists iterate their
elements, strings their one-character substrings, dicts their keys;
`None`, booleans and numbers raise `TypeError`. -/
def pyIter : JValue → Except PyErr (List JValue)
  | .arr xs => .ok xs
  | .str s => .ok (s.map (fun c => .str [c]))
  | .obj ms => .ok (ms.map (fun m => .str m.1))
  | _ => .error .typeError

/-- The loop body of `_calc_cur_checksum`: for each entry, open and read
the file, then update the hash state with `struct.pack(">q", len(fb))`,
the raw bytes, and `_TAG`.  `struct.pack(">q", n)` raises `struct.error`
for `n ≥ 2^63`.  The hash state is the byte stream fed so far. -/
def calcLoop (md5hex : ByteStr → PyStr) (fs : FS) :
    List JValue → ByteStr → Except PyErr PyStr
  | [], h => .ok (md5hex h)
  | v :: rest, h =>
    match pyOpen fs v with
    | .error e => .error e
    | .ok fb =>
      if fb.length < 9223372036854775808 then
        calcLoop md5hex fs rest (h ++ packBE8 fb.length ++ fb ++ TAGbytes)
      else .error .structError

/-- `_calc_cur_checksum(file_lst, module_data)`: seed the md5 state with
`repr(key).encode()` (the ambient environment key, parameter `keyBytes`),
fold the file list through the loop, and return `h.hexdigest()`
(parameter `md5hex` applied to the accumulated stream). -/
def _calc_cur_checksum (md5hex : ByteStr → PyStr) (keyBytes : ByteStr)
    (fs : FS) (file_lst : JValue) : Except PyErr PyStr :=
  match pyIter file_lst with
  | .error e => .error e
  | .ok elems => calcLoop md5hex fs elems keyBytes

/-- Python `==` between a `json.loads` result and a `str`: only a string
compares equal to a string; values of other types compare unequal without
raising. -/
def pyEqStr (v : JValue) (s : PyStr) : Bool :=
  match v with
  | .str t => t = s
  | _ => false

/-- The comparison step of `is_checksum_valid`: `OSError` from reading a
checksummed file is caught and turned into `False` ("checksummed file not
found ... rebuilding"); other exceptions propagate; otherwise Python
compares `old_checksum == cur_checksum`. -/
def compareChecksum (old : JValue) (r : Except PyErr PyStr) : Except PyErr Bool :=
  match r with
  | .error .osError => .ok false
  | .error e => .error e
  | .ok cur => .ok (pyEqStr old cur)

/-- `is_checksum_valid(module_data)`: load the trailer; `(None, None)` (or
a literal `null` checksum) means `False`; otherwise compare the recorded
checksum against `_calc_cur_checksum` recomputed over the dependency list
recorded in the trailer. -/
def is_checksum_valid (md5hex : ByteStr → PyStr) (keyBytes : ByteStr)
    (fs : FS) (artifact : Option ByteStr) : Except PyErr Bool :=
  match _load_checksum_trailer artifact with
  | .error e => .error e
  | .ok none => .ok false
  | .ok (some (deps, old_checksum)) =>
    match old_checksum with
    | .null => .ok false
    | old => compareChecksum old (_calc_cur_checksum md5hex keyBytes fs deps)

/-- Modelled from the spec: `make_absolute` lives in
`cppimport/filepaths.py`, which is not among the provided source files.
The spec says each explicit dependency path is "made absolute relative to
the source's directory": an absolute path (leading `/`) is kept, a
relative one is joined onto the source file's directory. -/
def make_absolute (filedirname p : PyStr) : PyStr :=
  if p.head? = some 47 then p else filedirname ++ 47 :: p

/-- The fields of `module_data` that `checksum_save` reads:
`module_data["cfg"].get("dependencies", [])`, `module_data["filedirname"]`,
`module_data["extra_source_filepaths"]` and `module_data["filepath"]`. -/
structure ModuleData where
  filedirname : PyStr
  dependencies : List PyStr
  extra_source_filepaths : List PyStr
  filepath : PyStr

/-- `checksum_save(module_data)`: build `dep_filepaths` as the
made-absolute explicit dependencies, then the extra generated source
paths, then the primary source path; compute the checksum over that list;
append the trailer recording that same list and checksum to the artifact
bytes (returned as the new contents of `ext_path`). -/
def checksum_save (md5hex : ByteStr → PyStr) (keyBytes : ByteStr) (fs : FS)
    (m : ModuleData) (content : ByteStr) : Except PyErr ByteStr :=
  match _calc_cur_checksum md5hex keyBytes fs
      (.arr ((m.dependencies.map (make_absolute m.filedirname) ++
        m.extra_source_filepaths ++ [m.filepath]).map .str)) with
  | .error e => .error e
  | .ok cur_checksum =>
    _save_checksum_trailer content
      (m.dependencies.map (make_absolute m.filedirname) ++
        m.extra_source_filepaths ++ [m.filepath]) cur_checksum

/-- The bytes fed to the hash for one file's contents: the 8-byte
big-endian length prefix, the raw bytes, then the constant tag. -/
def fileChunk (fb : ByteStr) : ByteStr := packBE8 fb.length ++ fb ++ TAGbytes

/-- The whole file-content part of the hash input for a sequence of file
contents. -/
def fileChunks (cs : List ByteStr) : ByteStr := (cs.map fileChunk).flatten

/-- A list of code points that is a Python `str`: all below `0x110000`. -/
def validStrB (s : PyStr) : Bool := s.all (· < 1114112)

/-- No UTF-16 high-surrogate code point immediately followed by a
low-surrogate code point: the JSON decoder recombines the escapes of such
an adjacent pair into the single astral code point they would encode, so
only strings satisfying this predicate round-trip through
`json.dumps`/`json.loads`.  Strings of Unicode scalar values — in
particular all real file paths — satisfy it. -/
def goodStrB : PyStr → Bool
  | c1 :: c2 :: rest =>
    (!(55296 ≤ c1 && c1 < 56320 && 56320 ≤ c2 && c2 < 57344)) &&
      goodStrB (c2 :: rest)
  | _ => true

theorem unpackLE8s_packLE8 {n : Nat} (h : n < 9223372036854775808) :
    unpackLE8s (packLE8 n) = (n : Int) := by
  have hu : n % 256 + n / 256 % 256 * 256 + n / 65536 % 256 * 65536 +
      n / 16777216 % 256 * 16777216 + n / 4294967296 % 256 * 4294967296 +
      n / 1099511627776 % 256 * 1099511627776 +
      n / 281474976710656 % 256 * 281474976710656 +
      n / 72057594037927936 % 256 * 72057594037927936 = n := by omega
  simp only [packLE8, unpackLE8s, hu]
  rw [if_pos h]

theorem packBE8_inj {m n : Nat} (hm : m < 18446744073709551616)
    (hn : n < 18446744073709551616) (h : packBE8 m = packBE8 n) : m = n := by
  simp only [packBE8, List.cons.injEq, and_true] at h
  omega

theorem hexDigitChar_lt {n : Nat} (h : n < 16) : hexDigitChar n < 128 := by
  simp only [hexDigitChar]; split <;> omega

theorem hex4_ascii {n b : Nat} (hb : b ∈ hex4 n) : b < 128 := by
  simp only [hex4, List.mem_cons, List.not_mem_nil, or_false] at hb
  rcases hb with h | h | h | h <;>
    exact h ▸ hexDigitChar_lt (Nat.mod_lt _ (by norm_num))

set_option maxHeartbeats 1000000 in
theorem escChar_ascii {c b : Nat} (hb : b ∈ escChar c) : b < 128 := by
  unfold escChar at hb
  split_ifs at hb
  all_goals
    simp only [List.mem_cons, List.mem_append, List.not_mem_nil, or_false] at hb
  all_goals try omega
  · rcases hb with h | h | h
    · omega
    · omega
    · exact hex4_ascii h
  · rcases hb with h | h | h
    · omega
    · omega
    · exact hex4_ascii h
  · rcases hb with h | h | h | h | h
    · omega
    · omega
    · exact hex4_ascii h
    · omega
    · rcases h with h | h
      · omega
      · exact hex4_ascii h

theorem escBody_ascii {s : PyStr} {b : Nat} (hb : b ∈ escBody s) : b < 128 := by
  rw [escBody] at hb
  rcases List.mem_flatten.mp hb with ⟨l, hl, hbl⟩
  rcases List.mem_map.mp hl with ⟨c, _, rfl⟩
  exact escChar_ascii hbl

theorem jsonQuote_ascii {s : PyStr} {b : Nat} (hb : b ∈ jsonQuote s) : b < 128 := by
  rw [jsonQuote] at hb
  rcases List.mem_cons.mp hb with h | h
  · omega
  · rcases List.mem_append.mp h with h' | h'
    · exact escBody_ascii h'
    · simp only [List.mem_singleton] at h'; omega

theorem sepJoin_mem {xs : List (List Nat)} {b : Nat} (hb : b ∈ sepJoin xs) :
    b = 44 ∨ b = 32 ∨ ∃ x ∈ xs, b ∈ x := by
  induction xs with
  | nil => simp [sepJoin] at hb
  | cons x rest ih =>
    cases rest with
    | nil =>
      exact Or.inr (Or.inr ⟨x, by simp, hb⟩)
    | cons y t =>
      rw [sepJoin] at hb
      rcases List.mem_append.mp hb with h | h
      · exact Or.inr (Or.inr ⟨x, by simp, h⟩)
      · rcases List.mem_cons.mp h with h' | h'
        · exact Or.inl h'
        · rcases List.mem_cons.mp h' with h2 | h2
          · exact Or.inr (Or.inl h2)
          · rcases ih h2 with h3 | h3 | ⟨x1, hx1, hbx1⟩
            · exact Or.inl h3
            · exact Or.inr (Or.inl h3)
            · exact Or.inr (Or.inr ⟨x1, List.mem_cons_of_mem _ hx1, hbx1⟩)

theorem dumpsStrList_ascii {xs : List PyStr} {b : Nat} (hb : b ∈ dumpsStrList xs) :
    b < 128 := by
  rw [dumpsStrList] at hb
  rcases List.mem_cons.mp hb with h | h
  · omega
  · rcases List.mem_append.mp h with h' | h'
    · rcases sepJoin_mem h' with h2 | h2 | ⟨x, hx, hbx⟩
      · omega
      · omega
      · rcases List.mem_map.mp hx with ⟨s, _, rfl⟩
        exact jsonQuote_ascii hbx
    · simp only [List.mem_singleton] at h'; omega

theorem dumpsPair_ascii {deps : List PyStr} {digest : PyStr} {b : Nat}
    (hb : b ∈ dumpsPair deps digest) : b < 128 := by
  rw [dumpsPair] at hb
  rcases List.mem_cons.mp hb with h | h
  · omega
  · rcases List.mem_append.mp h with h' | h'
    · exact dumpsStrList_ascii h'
    · rcases List.mem_cons.mp h' with h2 | h2
      · omega
      · rcases List.mem_cons.mp h2 with h3 | h3
        · omega
        · rcases List.mem_append.mp h3 with h4 | h4
          · exact jsonQuote_ascii h4
          · simp only [List.mem_singleton] at h4; omega

theorem utf8Step_ascii {b : Nat} (rest : ByteStr) (hb : b < 128) :
    utf8Step b rest = some (b, rest) := by
  unfold utf8Step
  rw [if_pos hb]

theorem utf8Go_ascii {l : ByteStr} : ∀ {fuel : Nat}, (∀ b ∈ l, b < 128) →
    l.length + 1 ≤ fuel → utf8Go fuel l = some l := by
  induction l with
  | nil =>
    intro fuel _ hf
    obtain ⟨f, rfl⟩ : ∃ f, fuel = f + 1 := ⟨fuel - 1, by omega⟩
    rfl
  | cons b rest ih =>
    intro fuel h hf
    obtain ⟨f, rfl⟩ : ∃ f, fuel = f + 1 := ⟨fuel - 1, by omega⟩
    have hb : b < 128 := h b (List.mem_cons_self _ _)
    have hlen : rest.length + 1 ≤ f := by
      simp only [List.length_cons] at hf; omega
    rw [utf8Go, utf8Step_ascii _ hb]
    show Option.map (fun x => b :: x) (utf8Go f rest) = some (b :: rest)
    rw [ih (fun x hx => h x (List.mem_cons_of_mem _ hx)) hlen]
    rfl

theorem utf8Decode_ascii {l : ByteStr} (h : ∀ b ∈ l, b < 128) :
    utf8Decode l = some l :=
  utf8Go_ascii h (Nat.le_refl _)

theorem skipWs_nonws {c : Nat} (l : PyStr) (h : ¬(c = 32 ∨ c = 9 ∨ c = 10 ∨ c = 13)) :
    skipWs (c :: l) = c :: l := by
  rw [skipWs, if_neg h]

theorem hexVal_hexChar : ∀ d : Nat, d < 16 → hexDigitVal (hexDigitChar d) = some d := by
  decide

theorem hex4At_hex4 {n : Nat} (h : n < 65536) (r : PyStr) :
    hex4At (hex4 n ++ r) = some (n, r) := by
  have h1 := hexVal_hexChar (n / 4096 % 16) (Nat.mod_lt _ (by norm_num))
  have h2 := hexVal_hexChar (n / 256 % 16) (Nat.mod_lt _ (by norm_num))
  have h3 := hexVal_hexChar (n / 16 % 16) (Nat.mod_lt _ (by norm_num))
  have h4 := hexVal_hexChar (n % 16) (Nat.mod_lt _ (by norm_num))
  have harith : n / 4096 % 16 * 4096 + n / 256 % 16 * 256 + n / 16 % 16 * 16 + n % 16 = n := by
    omega
  simp only [hex4, List.cons_append, List.nil_append, hex4At, h1, h2, h3, h4, harith]

theorem escChar_raw {c : Nat} (h1 : 32 ≤ c) (h2 : c < 127) (h3 : c ≠ 34) (h4 : c ≠ 92) :
    escChar c = [c] := by
  unfold escChar
  rw [if_neg h3, if_neg h4, if_neg (by omega : ¬c = 8), if_neg (by omega : ¬c = 9),
    if_neg (by omega : ¬c = 10), if_neg (by omega : ¬c = 12), if_neg (by omega : ¬c = 13),
    if_neg (by omega : ¬c < 32), if_pos h2]

theorem escChar_ctrl {c : Nat} (hlt : c < 32) (h8 : c ≠ 8) (h9 : c ≠ 9) (h10 : c ≠ 10)
    (h12 : c ≠ 12) (h13 : c ≠ 13) : escChar c = 92 :: 117 :: hex4 c := by
  unfold escChar
  rw [if_neg (by omega : ¬c = 34), if_neg (by omega : ¬c = 92), if_neg h8, if_neg h9,
    if_neg h10, if_neg h12, if_neg h13, if_pos hlt]

theorem escChar_u {c : Nat} (h : 127 ≤ c) (h2 : c < 65536) :
    escChar c = 92 :: 117 :: hex4 c := by
  unfold escChar
  rw [if_neg (by omega : ¬c = 34), if_neg (by omega : ¬c = 92), if_neg (by omega : ¬c = 8),
    if_neg (by omega : ¬c = 9), if_neg (by omega : ¬c = 10), if_neg (by omega : ¬c = 12),
    if_neg (by omega : ¬c = 13), if_neg (by omega : ¬c < 32), if_neg (by omega : ¬c < 127),
    if_pos h2]

theorem escChar_astral {c : Nat} (h : 65536 ≤ c) :
    escChar c = 92 :: 117 :: (hex4 (55296 + (c - 65536) / 1024) ++
      (92 :: 117 :: hex4 (56320 + (c - 65536) % 1024))) := by
  unfold escChar
  rw [if_neg (by omega : ¬c = 34), if_neg (by omega : ¬c = 92), if_neg (by omega : ¬c = 8),
    if_neg (by omega : ¬c = 9), if_neg (by omega : ¬c = 10), if_neg (by omega : ¬c = 12),
    if_neg (by omega : ¬c = 13), if_neg (by omega : ¬c < 32), if_neg (by omega : ¬c < 127),
    if_neg (by omega : ¬c < 65536)]

theorem lowEscHead_not92 {a : Nat} (h : a ≠ 92) (l : PyStr) :
    lowEscHead (a :: l) = none := by
  cases l with
  | nil => rfl
  | cons b r =>
    rw [lowEscHead, if_neg]
    intro hc
    exact h hc.1

theorem lowEscHead_uesc {v : Nat} (hv : v < 65536) (z : PyStr) :
    lowEscHead (92 :: 117 :: (hex4 v ++ z)) =
      if 56320 ≤ v ∧ v < 57344 then some (v, z) else none := by
  rw [lowEscHead, if_pos ⟨rfl, rfl⟩, hex4At_hex4 hv]

theorem parseEsc_117 (w : PyStr) : parseEsc (117 :: w) = parseEscU w := by
  rw [parseEsc]
  norm_num

theorem parseEscU_notHigh {r : PyStr} {h : Nat} {r2 : PyStr}
    (hh : hex4At r = some (h, r2)) (hnh : ¬(55296 ≤ h ∧ h < 56320)) :
    parseEscU r = some (h, r2) := by
  unfold parseEscU
  rw [hh]
  exact if_neg hnh

theorem parseEscU_high_none {r : PyStr} {h : Nat} {r2 : PyStr}
    (hh : hex4At r = some (h, r2)) (hh1 : 55296 ≤ h) (hh2 : h < 56320)
    (hz : lowEscHead r2 = none) : parseEscU r = some (h, r2) := by
  unfold parseEscU
  rw [hh]
  show (if 55296 ≤ h ∧ h < 56320 then _ else _) = some (h, r2)
  rw [if_pos ⟨hh1, hh2⟩, hz]

theorem parseEscU_high_low {r : PyStr} {h : Nat} {r2 : PyStr} {l : Nat} {r3 : PyStr}
    (hh : hex4At r = some (h, r2)) (hh1 : 55296 ≤ h) (hh2 : h < 56320)
    (hz : lowEscHead r2 = some (l, r3)) :
    parseEscU r = some (65536 + (h - 55296) * 1024 + (l - 56320), r3) := by
  unfold parseEscU
  rw [hh]
  show (if 55296 ≤ h ∧ h < 56320 then _ else _) = _
  rw [if_pos ⟨hh1, hh2⟩, hz]

theorem parseEsc_u_notHigh {c : Nat} (h65 : c < 65536) (hnh : ¬(55296 ≤ c ∧ c < 56320))
    (z : PyStr) : parseEsc (117 :: (hex4 c ++ z)) = some (c, z) := by
  rw [parseEsc_117]
  exact parseEscU_notHigh (hex4At_hex4 h65 z) hnh

theorem parseEsc_u_high_none {c : Nat} (hh1 : 55296 ≤ c) (hh2 : c < 56320) {z : PyStr}
    (hz : lowEscHead z = none) : parseEsc (117 :: (hex4 c ++ z)) = some (c, z) := by
  rw [parseEsc_117]
  exact parseEscU_high_none (hex4At_hex4 (by omega) z) hh1 hh2 hz

theorem parseEsc_astral {c : Nat} (h1 : 65536 ≤ c) (h2 : c < 1114112) (z : PyStr) :
    parseEsc (117 :: (hex4 (55296 + (c - 65536) / 1024) ++
      (92 :: 117 :: (hex4 (56320 + (c - 65536) % 1024) ++ z)))) = some (c, z) := by
  have hhi : 55296 + (c - 65536) / 1024 < 65536 := by omega
  have hlo : 56320 + (c - 65536) % 1024 < 65536 := by omega
  have hz : lowEscHead (92 :: 117 :: (hex4 (56320 + (c - 65536) % 1024) ++ z)) =
      some (56320 + (c - 65536) % 1024, z) := by
    rw [lowEscHead_uesc hlo]
    exact if_pos ⟨by omega, by omega⟩
  rw [parseEsc_117,
    parseEscU_high_low (hex4At_hex4 hhi _) (by omega) (by omega) hz]
  exact congrArg (fun x => some (x, z)) (by omega)

theorem psb_quote (f : Nat) (z : PyStr) : parseStringBody (f + 1) (34 :: z) = some ([], z) :=
  rfl

theorem psb_escape {z : PyStr} {ch : Nat} {z2 : PyStr} (f : Nat)
    (h : parseEsc z = some (ch, z2)) :
    parseStringBody (f + 1) (92 :: z) =
      (parseStringBody f z2).map (fun p => (ch :: p.1, p.2)) := by
  rw [parseStringBody, if_neg (by decide : ¬(92 : Nat) = 34),
    if_pos (rfl : (92 : Nat) = 92), h]

theorem psb_raw {c : Nat} (f : Nat) (z : PyStr) (h1 : c ≠ 34) (h2 : c ≠ 92)
    (h3 : ¬(c < 32)) :
    parseStringBody (f + 1) (c :: z) =
      (parseStringBody f z).map (fun p => (c :: p.1, p.2)) := by
  rw [parseStringBody, if_neg h1, if_neg h2, if_neg h3]

theorem escBody_cons (c : Nat) (tl : PyStr) : escBody (c :: tl) = escChar c ++ escBody tl := by
  simp [escBody]

theorem validStrB_cons {c : Nat} {tl : PyStr} (h : validStrB (c :: tl) = true) :
    c < 1114112 ∧ validStrB tl = true := by
  simp only [validStrB, List.all_cons, Bool.and_eq_true, decide_eq_true_eq] at h ⊢
  exact h

theorem goodStrB_tail {c : Nat} {tl : PyStr} (h : goodStrB (c :: tl) = true) :
    goodStrB tl = true := by
  cases tl with
  | nil => rfl
  | cons c2 tl2 =>
    rw [goodStrB, Bool.and_eq_true] at h
    exact h.2

theorem goodStrB_pair {c c2 : Nat} {tl2 : PyStr} (h : goodStrB (c :: c2 :: tl2) = true)
    (hc1 : 55296 ≤ c) (hc2 : c < 56320) : ¬(56320 ≤ c2 ∧ c2 < 57344) := by
  rw [goodStrB, Bool.and_eq_true] at h
  have h1 := h.1
  simp only [Bool.not_eq_true', Bool.and_eq_false_iff, decide_eq_false_iff_not,
    not_le, not_lt] at h1
  omega

theorem lowEscHead_escChar_notlow {c : Nat} (hval : c < 1114112)
    (hnl : ¬(56320 ≤ c ∧ c < 57344)) (z : PyStr) :
    lowEscHead (escChar c ++ z) = none := by
  by_cases h34 : c = 34
  · subst h34
    rw [show escChar 34 = [92, 34] from rfl]
    simp only [List.cons_append, List.nil_append]
    rw [lowEscHead, if_neg (by decide)]
  by_cases h92 : c = 92
  · subst h92
    rw [show escChar 92 = [92, 92] from rfl]
    simp only [List.cons_append, List.nil_append]
    rw [lowEscHead, if_neg (by decide)]
  by_cases h8 : c = 8
  · subst h8
    rw [show escChar 8 = [92, 98] from rfl]
    simp only [List.cons_append, List.nil_append]
    rw [lowEscHead, if_neg (by decide)]
  by_cases h9 : c = 9
  · subst h9
    rw [show escChar 9 = [92, 116] from rfl]
    simp only [List.cons_append, List.nil_append]
    rw [lowEscHead, if_neg (by decide)]
  by_cases h10 : c = 10
  · subst h10
    rw [show escChar 10 = [92, 110] from rfl]
    simp only [List.cons_append, List.nil_append]
    rw [lowEscHead, if_neg (by decide)]
  by_cases h12 : c = 12
  · subst h12
    rw [show escChar 12 = [92, 102] from rfl]
    simp only [List.cons_append, List.nil_append]
    rw [lowEscHead, if_neg (by decide)]
  by_cases h13 : c = 13
  · subst h13
    rw [show escChar 13 = [92, 114] from rfl]
    simp only [List.cons_append, List.nil_append]
    rw [lowEscHead, if_neg (by decide)]
  by_cases hctrl : c < 32
  · rw [escChar_ctrl hctrl h8 h9 h10 h12 h13]
    simp only [List.cons_append]
    rw [lowEscHead_uesc (by omega), if_neg (by omega)]
  by_cases hraw : c < 127
  · rw [escChar_raw (by omega) hraw h34 h92, List.singleton_append]
    exact lowEscHead_not92 h92 z
  by_cases hbmp : c < 65536
  · rw [escChar_u (by omega) hbmp]
    simp only [List.cons_append]
    rw [lowEscHead_uesc hbmp, if_neg hnl]
  · rw [escChar_astral (by omega)]
    simp only [List.cons_append, List.append_assoc]
    rw [lowEscHead_uesc (by omega), if_neg (by omega)]

theorem psb_escBody : ∀ (s : PyStr) (fuel : Nat) (rest : PyStr),
    validStrB s = true → goodStrB s = true → s.length + 1 ≤ fuel →
    parseStringBody fuel (escBody s ++ (34 :: rest)) = some (s, rest) := by
  intro s
  induction s with
  | nil =>
    intro fuel rest _ _ hf
    obtain ⟨f, rfl⟩ : ∃ f, fuel = f + 1 := ⟨fuel - 1, by omega⟩
    rw [show escBody [] ++ (34 :: rest) = 34 :: rest from rfl]
    exact psb_quote f rest
  | cons c tl ih =>
    intro fuel rest hv hg hf
    obtain ⟨f, rfl⟩ : ∃ f, fuel = f + 1 := ⟨fuel - 1, by omega⟩
    obtain ⟨hc, hvt⟩ := validStrB_cons hv
    have hgt := goodStrB_tail hg
    have hlen : tl.length + 1 ≤ f := by
      simp only [List.length_cons] at hf
      omega
    have IH := ih f rest hvt hgt hlen
    rw [escBody_cons, List.append_assoc]
    by_cases h34 : c = 34
    · subst h34
      rw [show escChar 34 ++ (escBody tl ++ 34 :: rest) =
        92 :: (34 :: (escBody tl ++ 34 :: rest)) from rfl]
      rw [psb_escape f (show parseEsc (34 :: (escBody tl ++ 34 :: rest)) =
        some (34, escBody tl ++ 34 :: rest) from rfl), IH]
      rfl
    by_cases h92 : c = 92
    · subst h92
      rw [show escChar 92 ++ (escBody tl ++ 34 :: rest) =
        92 :: (92 :: (escBody tl ++ 34 :: rest)) from rfl]
      rw [psb_escape f (show parseEsc (92 :: (escBody tl ++ 34 :: rest)) =
        some (92, escBody tl ++ 34 :: rest) from rfl), IH]
      rfl
    by_cases h8 : c = 8
    · subst h8
      rw [show escChar 8 ++ (escBody tl ++ 34 :: rest) =
        92 :: (98 :: (escBody tl ++ 34 :: rest)) from rfl]
      rw [psb_escape f (show parseEsc (98 :: (escBody tl ++ 34 :: rest)) =
        some (8, escBody tl ++ 34 :: rest) from rfl), IH]
      rfl
    by_cases h9 : c = 9
    · subst h9
      rw [show escChar 9 ++ (escBody tl ++ 34 :: rest) =
        92 :: (116 :: (escBody tl ++ 34 :: rest)) from rfl]
      rw [psb_escape f (show parseEsc (116 :: (escBody tl ++ 34 :: rest)) =
        some (9, escBody tl ++ 34 :: rest) from rfl), IH]
      rfl
    by_cases h10 : c = 10
    · subst h10
      rw [show escChar 10 ++ (escBody tl ++ 34 :: rest) =
        92 :: (110 :: (escBody tl ++ 34 :: rest)) from rfl]
      rw [psb_escape f (show parseEsc (110 :: (escBody tl ++ 34 :: rest)) =
        some (10, escBody tl ++ 34 :: rest) from rfl), IH]
      rfl
    by_cases h12 : c = 12
    · subst h12
      rw [show escChar 12 ++ (escBody tl ++ 34 :: rest) =
        92 :: (102 :: (escBody tl ++ 34 :: rest)) from rfl]
      rw [psb_escape f (show parseEsc (102 :: (escBody tl ++ 34 :: rest)) =
        some (12, escBody tl ++ 34 :: rest) from rfl), IH]
      rfl
    by_cases h13 : c = 13
    · subst h13
      rw [show escChar 13 ++ (escBody tl ++ 34 :: rest) =
        92 :: (114 :: (escBody tl ++ 34 :: rest)) from rfl]
      rw [psb_escape f (show parseEsc (114 :: (escBody tl ++ 34 :: rest)) =
        some (13, escBody tl ++ 34 :: rest) from rfl), IH]
      rfl
    by_cases hctrl : c < 32
    · rw [escChar_ctrl hctrl h8 h9 h10 h12 h13]
      simp only [List.cons_append]
      rw [psb_escape f (parseEsc_u_notHigh (by omega) (by omega) _), IH]
      rfl
    by_cases hraw : c < 127
    · rw [escChar_raw (by omega) hraw h34 h92, List.singleton_append]
      rw [psb_raw f _ h34 h92 (by omega), IH]
      rfl
    by_cases hhigh : 55296 ≤ c ∧ c < 56320
    · rw [escChar_u (by omega) (by omega)]
      simp only [List.cons_append]
      have hlow : lowEscHead (escBody tl ++ 34 :: rest) = none := by
        cases tl with
        | nil =>
          rw [show escBody [] ++ 34 :: rest = 34 :: rest from rfl]
          exact lowEscHead_not92 (by decide) rest
        | cons c2 tl2 =>
          rw [escBody_cons, List.append_assoc]
          exact lowEscHead_escChar_notlow (validStrB_cons hvt).1
            (goodStrB_pair hg hhigh.1 hhigh.2) _
      rw [psb_escape f (parseEsc_u_high_none hhigh.1 hhigh.2 hlow), IH]
      rfl
    by_cases hbmp : c < 65536
    · rw [escChar_u (by omega) hbmp]
      simp only [List.cons_append]
      rw [psb_escape f (parseEsc_u_notHigh hbmp hhigh _), IH]
      rfl
    · rw [escChar_astral (by omega)]
      simp only [List.cons_append, List.append_assoc]
      rw [psb_escape f (parseEsc_astral (by omega) hc _), IH]
      rfl

set_option maxHeartbeats 1000000 in
theorem escChar_length_pos (c : Nat) : 1 ≤ (escChar c).length := by
  unfold escChar
  split_ifs <;> simp

theorem escBody_length_ge (s : PyStr) : s.length ≤ (escBody s).length := by
  induction s with
  | nil => simp [escBody]
  | cons c tl ih =>
    rw [escBody_cons, List.length_append, List.length_cons]
    have := escChar_length_pos c
    omega

theorem parseArrTail_93 (g : PyStr → Option (List JValue × PyStr)) (r : PyStr) :
    parseArrTail g (93 :: r) = some (.arr [], r) := rfl

theorem parseArrTail_34 (g : PyStr → Option (List JValue × PyStr)) (r : PyStr) :
    parseArrTail g (34 :: r) = (g (34 :: r)).map (fun p => (JValue.arr p.1, p.2)) := rfl

theorem parseArrTail_91 (g : PyStr → Option (List JValue × PyStr)) (r : PyStr) :
    parseArrTail g (91 :: r) = (g (91 :: r)).map (fun p => (JValue.arr p.1, p.2)) := rfl

theorem parseElemsTail_44 (g : PyStr → Option (List JValue × PyStr)) (v : JValue)
    (r2 : PyStr) :
    parseElemsTail g v (44 :: r2) = (g (skipWs r2)).map (fun q => (v :: q.1, q.2)) := rfl

theorem parseElemsTail_93 (g : PyStr → Option (List JValue × PyStr)) (v : JValue)
    (r2 : PyStr) : parseElemsTail g v (93 :: r2) = some ([v], r2) := rfl

theorem parseValue_jsonQuote {s : PyStr} (fuel : Nat) (rest : PyStr)
    (hv : validStrB s = true) (hg : goodStrB s = true) :
    parseValue (fuel + 1) (jsonQuote s ++ rest) = some (.str s, rest) := by
  rw [jsonQuote]
  simp only [List.cons_append, List.append_assoc, List.singleton_append, List.nil_append]
  rw [parseValue, if_pos rfl]
  rw [psb_escBody s _ rest hv hg (by
    have := escBody_length_ge s
    simp only [List.length_append, List.length_cons]
    omega)]
  rfl

theorem skipWs_sepJoin_quote (d2 : PyStr) (tl2 : List PyStr) (Y : PyStr) :
    skipWs (sepJoin ((d2 :: tl2).map jsonQuote) ++ Y) =
      sepJoin ((d2 :: tl2).map jsonQuote) ++ Y := by
  cases tl2 with
  | nil =>
    rw [show sepJoin ([d2].map jsonQuote) = 34 :: (escBody d2 ++ [34]) from rfl,
      List.cons_append]
    exact skipWs_nonws _ (by norm_num)
  | cons d3 tl3 =>
    rw [show sepJoin ((d2 :: d3 :: tl3).map jsonQuote) =
      (34 :: (escBody d2 ++ [34])) ++ (44 :: 32 :: sepJoin ((d3 :: tl3).map jsonQuote))
      from rfl]
    simp only [List.cons_append, List.append_assoc]
    exact skipWs_nonws _ (by norm_num)

theorem parseElems_strings : ∀ (ds : List PyStr) (f2 : Nat) (rest : PyStr),
    (∀ d ∈ ds, validStrB d = true ∧ goodStrB d = true) → ds ≠ [] →
    ds.length + 2 ≤ f2 + 2 →
    parseElems (f2 + 1 + 1) (sepJoin (ds.map jsonQuote) ++ (93 :: rest)) =
      some (ds.map JValue.str, rest) := by
  intro ds
  induction ds with
  | nil => intro _ _ _ hne _; exact absurd rfl hne
  | cons d tl ih =>
    intro f2 rest hall _ hf
    cases tl with
    | nil =>
      rw [show sepJoin ([d].map jsonQuote) = jsonQuote d from rfl]
      rw [parseElems, parseValue_jsonQuote f2 _ (hall d (by simp)).1 (hall d (by simp)).2]
      simp only [Option.some_bind]
      rw [skipWs_nonws rest (by norm_num), parseElemsTail_93]
      rfl
    | cons d2 tl2 =>
      rw [show sepJoin ((d :: d2 :: tl2).map jsonQuote) =
        jsonQuote d ++ (44 :: 32 :: sepJoin ((d2 :: tl2).map jsonQuote)) from rfl,
        List.append_assoc]
      rw [parseElems, parseValue_jsonQuote f2 _ (hall d (by simp)).1 (hall d (by simp)).2]
      simp only [Option.some_bind, List.cons_append]
      rw [skipWs_nonws _ (by norm_num), parseElemsTail_44]
      rw [show skipWs (32 :: (sepJoin ((d2 :: tl2).map jsonQuote) ++ (93 :: rest))) =
        skipWs (sepJoin ((d2 :: tl2).map jsonQuote) ++ (93 :: rest)) from by
          rw [skipWs, if_pos (by norm_num)]]
      rw [skipWs_sepJoin_quote]
      obtain ⟨f3, rfl⟩ : ∃ f3, f2 = f3 + 1 := by
        refine ⟨f2 - 1, ?_⟩
        simp only [List.length_cons] at hf
        omega
      rw [ih f3 rest (fun x hx => hall x (List.mem_cons_of_mem _ hx)) (by simp)
        (by simp only [List.length_cons] at hf ⊢; omega)]
      rfl

theorem parseValue_strList {xs : List PyStr} (fuel : Nat) (rest : PyStr)
    (hall : ∀ d ∈ xs, validStrB d = true ∧ goodStrB d = true)
    (hf : xs.length + 2 ≤ fuel) :
    parseValue (fuel + 1) (dumpsStrList xs ++ rest) =
      some (.arr (xs.map JValue.str), rest) := by
  rw [dumpsStrList]
  simp only [List.cons_append, List.append_assoc, List.singleton_append, List.nil_append]
  rw [parseValue, if_neg (by decide), if_neg (by decide), if_pos rfl]
  cases xs with
  | nil =>
    rw [show sepJoin (([] : List PyStr).map jsonQuote) ++ (93 :: rest) = 93 :: rest
      from rfl]
    rw [skipWs_nonws _ (by norm_num), parseArrTail_93]
    rfl
  | cons d tl =>
    rw [skipWs_sepJoin_quote d tl (93 :: rest)]
    obtain ⟨w, hw⟩ : ∃ w, sepJoin ((d :: tl).map jsonQuote) = 34 :: w := by
      cases tl <;> exact ⟨_, rfl⟩
    rw [hw, List.cons_append, parseArrTail_34, ← List.cons_append, ← hw]
    obtain ⟨f2, rfl⟩ : ∃ f2, fuel = f2 + 1 + 1 := by
      refine ⟨fuel - 2, ?_⟩
      simp only [List.length_cons] at hf
      omega
    rw [parseElems_strings (d :: tl) f2 rest hall (by simp)
      (by simp only [List.length_cons] at hf ⊢; omega)]
    rfl

theorem sepJoin_quote_length (ds : List PyStr) :
    ds.length ≤ (sepJoin (ds.map jsonQuote)).length := by
  induction ds with
  | nil => simp [sepJoin]
  | cons d tl ih =>
    cases tl with
    | nil => simp [sepJoin, jsonQuote]
    | cons d2 tl2 =>
      rw [show sepJoin ((d :: d2 :: tl2).map jsonQuote) =
        jsonQuote d ++ (44 :: 32 :: sepJoin ((d2 :: tl2).map jsonQuote)) from rfl]
      simp only [List.length_append, List.length_cons, jsonQuote] at ih ⊢
      omega

theorem dumpsPair_length_ge (deps : List PyStr) (digest : PyStr) :
    deps.length + 5 ≤ (dumpsPair deps digest).length := by
  have h1 := sepJoin_quote_length deps
  rw [dumpsPair, dumpsStrList, jsonQuote]
  simp only [List.length_cons, List.length_append]
  omega

theorem parseElems_pair {deps : List PyStr} {digest : PyStr} (f : Nat) (rest : PyStr)
    (hall : ∀ d ∈ deps, validStrB d = true ∧ goodStrB d = true)
    (hd : validStrB digest = true) (hgd : goodStrB digest = true)
    (hf : deps.length + 3 ≤ f + 2) :
    parseElems (f + 2 + 1)
      (dumpsStrList deps ++ (44 :: 32 :: (jsonQuote digest ++ (93 :: rest)))) =
      some ([.arr (deps.map JValue.str), .str digest], rest) := by
  rw [parseElems, parseValue_strList (f + 1) _ hall (by omega)]
  simp only [Option.some_bind]
  rw [skipWs_nonws _ (by norm_num), parseElemsTail_44]
  rw [show skipWs (32 :: (jsonQuote digest ++ (93 :: rest))) =
    skipWs (jsonQuote digest ++ (93 :: rest)) from by rw [skipWs, if_pos (by norm_num)]]
  rw [jsonQuote, List.cons_append, skipWs_nonws _ (by norm_num), ← List.cons_append,
    ← jsonQuote]
  rw [parseElems, parseValue_jsonQuote f _ hd hgd]
  simp only [Option.some_bind]
  rw [skipWs_nonws _ (by norm_num), parseElemsTail_93]
  rfl

theorem parseArrTail_dumpsStrList (g : PyStr → Option (List JValue × PyStr))
    (deps : List PyStr) (X : PyStr) :
    parseArrTail g (dumpsStrList deps ++ X) =
      (g (dumpsStrList deps ++ X)).map (fun p => (JValue.arr p.1, p.2)) := by
  rw [dumpsStrList, List.cons_append, parseArrTail_91, ← List.cons_append, ← dumpsStrList]

theorem loads_dumpsPair {deps : List PyStr} {digest : PyStr}
    (hall : ∀ d ∈ deps, validStrB d = true ∧ goodStrB d = true)
    (hd : validStrB digest = true) (hgd : goodStrB digest = true) :
    loads (dumpsPair deps digest) =
      some (.arr [.arr (deps.map JValue.str), .str digest]) := by
  have hba : ∀ b ∈ dumpsPair deps digest, b < 128 := fun b hb => dumpsPair_ascii hb
  have hlen := dumpsPair_length_ge deps digest
  rw [loads, utf8Decode_ascii hba]
  simp only [Option.some_bind]
  rw [show skipWs (dumpsPair deps digest) = dumpsPair deps digest from by
    rw [dumpsPair]; exact skipWs_nonws _ (by norm_num)]
  rw [dumpsPair] at hlen ⊢
  simp only [List.length_cons] at hlen ⊢
  rw [parseValue, if_neg (by decide), if_neg (by decide), if_pos rfl]
  rw [show skipWs (dumpsStrList deps ++ (44 :: 32 :: (jsonQuote digest ++ [93]))) =
    dumpsStrList deps ++ (44 :: 32 :: (jsonQuote digest ++ [93])) from by
      rw [dumpsStrList, List.cons_append]
      exact skipWs_nonws _ (by norm_num)]
  rw [parseArrTail_dumpsStrList]
  obtain ⟨f, hf2, hfe⟩ : ∃ f, deps.length + 3 ≤ f + 2 ∧
      (dumpsStrList deps ++ (44 :: 32 :: (jsonQuote digest ++ [93]))).length + 1 =
        f + 2 + 1 := by
    refine ⟨(dumpsStrList deps ++ (44 :: 32 :: (jsonQuote digest ++ [93]))).length - 2,
      ?_, ?_⟩ <;> omega
  rw [hfe, parseElems_pair f [] hall hd hgd hf2]
  simp only [Option.map_some', Option.some_bind]
  rfl

theorem load_trailer_append (base : ByteStr) (deps : List PyStr) (digest : PyStr)
    (hall : ∀ d ∈ deps, validStrB d = true ∧ goodStrB d = true)
    (hd : validStrB digest = true) (hgd : goodStrB digest = true)
    (hlen : (dumpsPair deps digest).length < 9223372036854775808) :
    _load_checksum_trailer (some (base ++ dumpsPair deps digest ++
        (packLE8 (dumpsPair deps digest).length ++ TAGbytes))) =
      .ok (some (.arr (deps.map JValue.str), .str digest)) := by
  have hplen : (packLE8 (dumpsPair deps digest).length).length = 8 := rfl
  have hclen : (base ++ dumpsPair deps digest ++
      (packLE8 (dumpsPair deps digest).length ++ TAGbytes)).length =
      base.length + (dumpsPair deps digest).length + 17 := by
    simp only [List.length_append, hplen, show TAGbytes.length = 9 from rfl]
  rw [_load_checksum_trailer, if_neg (by omega)]
  have hfoot : (base ++ dumpsPair deps digest ++
      (packLE8 (dumpsPair deps digest).length ++ TAGbytes)).drop
        ((base ++ dumpsPair deps digest ++
          (packLE8 (dumpsPair deps digest).length ++ TAGbytes)).length - 17) =
      packLE8 (dumpsPair deps digest).length ++ TAGbytes := by
    rw [hclen]
    exact List.drop_left' (by simp [List.length_append])
  rw [hfoot, checkTag, List.drop_left' hplen, List.take_left' hplen,
    unpackLE8s_packLE8 hlen, if_neg (by simp), seekPayload, if_neg (by rw [hclen]; omega),
    readPayload, if_neg (by omega)]
  have hton : (((base ++ dumpsPair deps digest ++
      (packLE8 (dumpsPair deps digest).length ++ TAGbytes)).length : Int) - 17 -
      ((dumpsPair deps digest).length : Int)).toNat = base.length := by
    rw [hclen]
    omega
  rw [hton, List.append_assoc, List.drop_left, Int.toNat_natCast, List.take_left,
    decodePayload, loads_dumpsPair hall hd hgd]
  rfl

theorem pyOpen_str_some {fs : FS} {p : PyStr} {bs : ByteStr} (h : fs p = some bs) :
    pyOpen fs (.str p) = .ok bs := by
  rw [pyOpen, h]

theorem pyOpen_str_none {fs : FS} {p : PyStr} (h : fs p = none) :
    pyOpen fs (.str p) = .error .osError := by
  rw [pyOpen, h]

theorem calcLoop_cons {md5hex : ByteStr → PyStr} {fs : FS} {v : JValue}
    {rest : List JValue} {h : ByteStr} {fb : ByteStr} (hopen : pyOpen fs v = .ok fb)
    (hsz : fb.length < 9223372036854775808) :
    calcLoop md5hex fs (v :: rest) h =
      calcLoop md5hex fs rest (h ++ packBE8 fb.length ++ fb ++ TAGbytes) := by
  rw [calcLoop, hopen]
  exact if_pos hsz

theorem calcLoop_cons_err {md5hex : ByteStr → PyStr} {fs : FS} {v : JValue}
    {rest : List JValue} {h : ByteStr} {e : PyErr} (hopen : pyOpen fs v = .error e) :
    calcLoop md5hex fs (v :: rest) h = .error e := by
  rw [calcLoop, hopen]

theorem calcLoop_cons_big {md5hex : ByteStr → PyStr} {fs : FS} {v : JValue}
    {rest : List JValue} {h : ByteStr} {fb : ByteStr} (hopen : pyOpen fs v = .ok fb)
    (hsz : ¬fb.length < 9223372036854775808) :
    calcLoop md5hex fs (v :: rest) h = .error .structError := by
  rw [calcLoop, hopen]
  exact if_neg hsz

theorem calcLoop_closed (md5hex : ByteStr → PyStr) (fs : FS) :
    ∀ {paths : List PyStr} {cs : List ByteStr},
    List.Forall₂ (fun p fb => fs p = some fb) paths cs →
    ∀ (h : ByteStr), (∀ fb ∈ cs, fb.length < 9223372036854775808) →
    calcLoop md5hex fs (paths.map JValue.str) h = .ok (md5hex (h ++ fileChunks cs)) := by
  intro paths cs hf
  induction hf with
  | nil =>
    intro h _
    simp [calcLoop, fileChunks]
  | cons hpf hrest ih =>
    intro h hsz
    rename_i p fb paths' cs'
    rw [List.map_cons,
      calcLoop_cons (pyOpen_str_some hpf) (hsz fb (List.mem_cons_self _ _)),
      ih _ (fun x hx => hsz x (List.mem_cons_of_mem _ hx))]
    congr 1
    simp [fileChunks, fileChunk, List.append_assoc]

theorem calc_arr (md5hex : ByteStr → PyStr) (keyBytes : ByteStr) (fs : FS)
    (elems : List JValue) :
    _calc_cur_checksum md5hex keyBytes fs (.arr elems) =
      calcLoop md5hex fs elems keyBytes := by
  rw [_calc_cur_checksum, pyIter]

theorem calc_closed {md5hex : ByteStr → PyStr} {keyBytes : ByteStr} {fs : FS}
    {paths : List PyStr} {cs : List ByteStr}
    (hf : List.Forall₂ (fun p fb => fs p = some fb) paths cs)
    (hsz : ∀ fb ∈ cs, fb.length < 9223372036854775808) :
    _calc_cur_checksum md5hex keyBytes fs (.arr (paths.map JValue.str)) =
      .ok (md5hex (keyBytes ++ fileChunks cs)) := by
  rw [calc_arr, calcLoop_closed md5hex fs hf keyBytes hsz]

theorem calcLoop_missing (md5hex : ByteStr → PyStr) (fs : FS) :
    ∀ (paths : List PyStr) (h : ByteStr) (p : PyStr), p ∈ paths → fs p = none →
    (∀ q fb, fs q = some fb → fb.length < 9223372036854775808) →
    calcLoop md5hex fs (paths.map JValue.str) h = .error .osError := by
  intro paths
  induction paths with
  | nil => intro h p hp; exact absurd hp (List.not_mem_nil p)
  | cons q rest ih =>
    intro h p hp hmiss hsz
    rw [List.map_cons]
    cases hq : fs q with
    | none => exact calcLoop_cons_err (pyOpen_str_none hq)
    | some fb =>
      rw [calcLoop_cons (pyOpen_str_some hq) (hsz q fb hq)]
      rcases List.mem_cons.mp hp with rfl | hp'
      · rw [hq] at hmiss; cases hmiss
      · exact ih _ p hp' hmiss hsz

theorem calcLoop_congr (md5hex : ByteStr → PyStr) (fs1 fs2 : FS) :
    ∀ (paths : List PyStr) (h : ByteStr), (∀ p ∈ paths, fs1 p = fs2 p) →
    calcLoop md5hex fs1 (paths.map JValue.str) h =
      calcLoop md5hex fs2 (paths.map JValue.str) h := by
  intro paths
  induction paths with
  | nil => intro h _; rfl
  | cons q rest ih =>
    intro h hag
    have hq := hag q (List.mem_cons_self _ _)
    rw [List.map_cons]
    cases hq2 : fs2 q with
    | none =>
      rw [calcLoop_cons_err (pyOpen_str_none (hq.trans hq2)),
        calcLoop_cons_err (pyOpen_str_none hq2)]
    | some fb =>
      by_cases hsz : fb.length < 9223372036854775808
      · rw [calcLoop_cons (pyOpen_str_some (hq.trans hq2)) hsz,
          calcLoop_cons (pyOpen_str_some hq2) hsz]
        exact ih _ (fun x hx => hag x (List.mem_cons_of_mem _ hx))
      · rw [calcLoop_cons_big (pyOpen_str_some (hq.trans hq2)) hsz,
          calcLoop_cons_big (pyOpen_str_some hq2) hsz]

theorem pyEncodeAscii_dumpsPair (deps : List PyStr) (digest : PyStr) :
    pyEncodeAscii (dumpsPair deps digest) = .ok (dumpsPair deps digest) := by
  rw [pyEncodeAscii, if_pos]
  rw [List.all_eq_true]
  intro b hb
  simpa using dumpsPair_ascii hb

theorem save_ok (content : ByteStr) {deps : List PyStr} {digest : PyStr}
    (hlen : (dumpsPair deps digest).length < 9223372036854775808) :
    _save_checksum_trailer content deps digest =
      .ok (content ++ dumpsPair deps digest ++
        (packLE8 (dumpsPair deps digest).length ++ TAGbytes)) := by
  rw [_save_checksum_trailer, pyEncodeAscii_dumpsPair]
  exact if_pos hlen

theorem valid_load_none {md5hex : ByteStr → PyStr} {keyBytes : ByteStr} {fs : FS}
    {artifact : Option ByteStr} (hl : _load_checksum_trailer artifact = .ok none) :
    is_checksum_valid md5hex keyBytes fs artifact = .ok false := by
  rw [is_checksum_valid, hl]

theorem valid_load_str_ok {md5hex : ByteStr → PyStr} {keyBytes : ByteStr} {fs : FS}
    {artifact : Option ByteStr} {deps : JValue} {d : PyStr} {cur : PyStr}
    (hl : _load_checksum_trailer artifact = .ok (some (deps, .str d)))
    (hc : _calc_cur_checksum md5hex keyBytes fs deps = .ok cur) :
    is_checksum_valid md5hex keyBytes fs artifact = .ok (decide (d = cur)) := by
  rw [is_checksum_valid, hl]
  show compareChecksum (.str d) (_calc_cur_checksum md5hex keyBytes fs deps) = _
  rw [hc]
  rfl

theorem valid_load_str_os {md5hex : ByteStr → PyStr} {keyBytes : ByteStr} {fs : FS}
    {artifact : Option ByteStr} {deps : JValue} {d : PyStr}
    (hl : _load_checksum_trailer artifact = .ok (some (deps, .str d)))
    (hc : _calc_cur_checksum md5hex keyBytes fs deps = .error .osError) :
    is_checksum_valid md5hex keyBytes fs artifact = .ok false := by
  rw [is_checksum_valid, hl]
  show compareChecksum (.str d) (_calc_cur_checksum md5hex keyBytes fs deps) = _
  rw [hc]
  rfl

theorem fileChunks_cons (fb : ByteStr) (t : List ByteStr) :
    fileChunks (fb :: t) = packBE8 fb.length ++ (fb ++ (TAGbytes ++ fileChunks t)) := by
  simp [fileChunks, fileChunk, List.append_assoc]

/-- C1: `is_checksum_valid` returns `False` whenever the trailer loader
reports `NotFound`; otherwise it recomputes the digest over exactly the
dependency list recorded in the trailer (not a rediscovered one) together
with the ambient environment key, and returns `True` iff the recomputed
digest equals the digest recorded in the trailer. -/
theorem c1_is_checksum_valid_verdict (md5hex : ByteStr → PyStr) (keyBytes : ByteStr)
    (fs : FS) (artifact : Option ByteStr) :
    (_load_checksum_trailer artifact = .ok none →
      is_checksum_valid md5hex keyBytes fs artifact = .ok false) ∧
    (∀ (paths : List PyStr) (d : PyStr) (cs : List ByteStr),
      _load_checksum_trailer artifact =
        .ok (some (.arr (paths.map JValue.str), .str d)) →
      List.Forall₂ (fun p fb => fs p = some fb) paths cs →
      (∀ fb ∈ cs, fb.length < 9223372036854775808) →
      is_checksum_valid md5hex keyBytes fs artifact =
        .ok (decide (d = md5hex (keyBytes ++ fileChunks cs)))) :=
  ⟨fun hl => valid_load_none hl,
   fun _ _ _ hl hf hsz => valid_load_str_ok hl (calc_closed hf hsz)⟩

theorem c1_witness :
    is_checksum_valid (fun _ => []) [] (fun _ => none)
      (some (dumpsPair [] [100] ++
        (packLE8 (dumpsPair [] [100]).length ++ TAGbytes))) = .ok false :=
  (c1_is_checksum_valid_verdict (fun _ => []) [] (fun _ => none)
    (some (dumpsPair [] [100] ++
      (packLE8 (dumpsPair [] [100]).length ++ TAGbytes)))).2
    [] [100] [] rfl List.Forall₂.nil (by simp)

/-- C2 counterexample: a dependency path consisting of a lone UTF-16 high
surrogate immediately followed by a lone low surrogate (code points
`0xD83D, 0xDE00`) does not round-trip: the JSON decoder recombines the two
escapes into the single astral code point `0x1F600`, so reading back the
trailer does not return the written pair. -/
theorem c2_surrogate_pair_counterexample :
    (_save_checksum_trailer [] [[55357, 56832]] [120]).bind
      (fun c => _load_checksum_trailer (some c)) ≠
      .ok (some (.arr [.str [55357, 56832]], .str [120])) := by
  intro h
  rw [show (_save_checksum_trailer [] [[55357, 56832]] [120]).bind
      (fun c => _load_checksum_trailer (some c)) =
      .ok (some (.arr [.str [128512]], .str [120])) from rfl] at h
  simp at h

/-- C2 (amended): writing a trailer and reading it back with no
intervening writes returns exactly the written `(fileSet, digest)` pair,
provided no string contains a UTF-16 high-surrogate code point immediately
followed by a low-surrogate code point (all real paths — sequences of
Unicode scalar values — satisfy this) and the encoded payload fits the
signed 64-bit length field. -/
theorem c2_trailer_roundtrip (base : ByteStr) (deps : List PyStr) (digest : PyStr)
    (hall : ∀ d ∈ deps, validStrB d = true ∧ goodStrB d = true)
    (hd : validStrB digest = true) (hgd : goodStrB digest = true)
    (hlen : (dumpsPair deps digest).length < 9223372036854775808) :
    ∃ c, _save_checksum_trailer base deps digest = .ok c ∧
      _load_checksum_trailer (some c) =
        .ok (some (.arr (deps.map JValue.str), .str digest)) :=
  ⟨_, save_ok base hlen, load_trailer_append base deps digest hall hd hgd hlen⟩

theorem c2_witness :
    ∃ c, _save_checksum_trailer [9] [[97]] [104] = .ok c ∧
      _load_checksum_trailer (some c) =
        .ok (some (.arr [.str [97]], .str [104])) :=
  c2_trailer_roundtrip [9] [[97]] [104] (by decide) (by decide) (by decide) (by decide)

/-- C3: the claim says `_load_checksum_trailer` returns `(None, None)` on
every corrupt input and never raises; the code violates this on a payload
whose JSON decoding succeeds with a non-iterable value.  At the artifact
whose payload is the single byte `"5"` (valid JSON for the number `5`,
with a well-formed footer of length 1 and the correct magic tag), the
tuple unpacking `deps, old_checksum = json.loads(json_s)` raises an
uncaught `TypeError`, while the short-file, missing-file and tag-mismatch
legs do return `(None, None)` as claimed. -/
theorem c3_scalar_payload_typeerror :
    _load_checksum_trailer (some ([53] ++ packLE8 1 ++ TAGbytes)) = .error .typeError ∧
    _load_checksum_trailer (some []) = .ok none ∧
    _load_checksum_trailer none = .ok none ∧
    _load_checksum_trailer (some TAGbytes) = .ok none ∧
    _load_checksum_trailer
      (some [0, 0, 0, 0, 0, 0, 0, 0, 0, 0, 0, 0, 0, 0, 0, 0, 0]) = .ok none :=
  ⟨rfl, rfl, rfl, rfl, rfl⟩

/-- C4: `_calc_cur_checksum` seeds the hash stream with the canonical
encoding of the environment key, then for each path in the file list in
list order feeds the file's byte length as an 8-byte big-endian integer,
the raw bytes, and the constant tag, and outputs the digest of the final
stream. -/
theorem c4_calc_checksum_stream (md5hex : ByteStr → PyStr) (keyBytes : ByteStr)
    (fs : FS) (paths : List PyStr) (cs : List ByteStr)
    (hread : List.Forall₂ (fun p fb => fs p = some fb) paths cs)
    (hsz : ∀ fb ∈ cs, fb.length < 9223372036854775808) :
    _calc_cur_checksum md5hex keyBytes fs (.arr (paths.map JValue.str)) =
      .ok (md5hex (keyBytes ++ fileChunks cs)) :=
  calc_closed hread hsz

theorem c4_witness :
    _calc_cur_checksum (fun l => l) [1]
      (fun q => if q = [97] then some [7, 8] else none) (.arr [.str [97]]) =
      .ok ([1] ++ fileChunks [[7, 8]]) :=
  c4_calc_checksum_stream (fun l => l) [1]
    (fun q => if q = [97] then some [7, 8] else none) [[97]] [[7, 8]]
    (List.Forall₂.cons rfl List.Forall₂.nil) (by decide)

/-- C5: `checksum_save` builds the file set as exactly the explicit
dependency paths made absolute against the source file's directory, in
their given order, then the extra generated source paths, then the primary
source path last; the digest is computed over that list and the trailer
stores that same list with that digest. -/
theorem c5_checksum_save_fileset (md5hex : ByteStr → PyStr) (keyBytes : ByteStr)
    (fs : FS) (m : ModuleData) (content : ByteStr) (cs : List ByteStr)
    (hread : List.Forall₂ (fun p fb => fs p = some fb)
      (m.dependencies.map (make_absolute m.filedirname) ++
        m.extra_source_filepaths ++ [m.filepath]) cs)
    (hsz : ∀ fb ∈ cs, fb.length < 9223372036854775808)
    (hall : ∀ d ∈ m.dependencies.map (make_absolute m.filedirname) ++
      m.extra_source_filepaths ++ [m.filepath],
      validStrB d = true ∧ goodStrB d = true)
    (hdv : validStrB (md5hex (keyBytes ++ fileChunks cs)) = true)
    (hdg : goodStrB (md5hex (keyBytes ++ fileChunks cs)) = true)
    (hlen : (dumpsPair (m.dependencies.map (make_absolute m.filedirname) ++
      m.extra_source_filepaths ++ [m.filepath])
      (md5hex (keyBytes ++ fileChunks cs))).length < 9223372036854775808) :
    ∃ out, checksum_save md5hex keyBytes fs m content = .ok out ∧
      _load_checksum_trailer (some out) =
        .ok (some (.arr ((m.dependencies.map (make_absolute m.filedirname) ++
          m.extra_source_filepaths ++ [m.filepath]).map JValue.str),
          .str (md5hex (keyBytes ++ fileChunks cs)))) := by
  refine ⟨_, ?_, load_trailer_append content _ _ hall hdv hdg hlen⟩
  rw [checksum_save, calc_closed hread hsz]
  exact save_ok content hlen

theorem c5_witness :
    ∃ out, checksum_save (fun _ => [104]) []
      (fun q => if q = [47, 116, 47, 98] then some [] else
        if q = [97] then some [1] else none)
      ⟨[47, 116], [[98]], [], [97]⟩ [3] = .ok out ∧
      _load_checksum_trailer (some out) =
        .ok (some (.arr [.str [47, 116, 47, 98], .str [97]], .str [104])) :=
  c5_checksum_save_fileset (fun _ => [104]) []
    (fun q => if q = [47, 116, 47, 98] then some [] else
      if q = [97] then some [1] else none)
    ⟨[47, 116], [[98]], [], [97]⟩ [3] [[], [1]]
    (List.Forall₂.cons rfl (List.Forall₂.cons rfl List.Forall₂.nil))
    (by decide) (by decide) (by decide) (by decide) (by decide)

/-- C6: for an artifact whose trailer decodes to a proper file list and a
string digest, if any recorded file is missing (unreadable) at validation
time, `is_checksum_valid` returns `False` rather than propagating an
error. -/
theorem c6_missing_dependency_false (md5hex : ByteStr → PyStr) (keyBytes : ByteStr)
    (fs : FS) (artifact : Option ByteStr) (paths : List PyStr) (d p : PyStr)
    (hl : _load_checksum_trailer artifact =
      .ok (some (.arr (paths.map JValue.str), .str d)))
    (hp : p ∈ paths) (hmiss : fs p = none)
    (hsz : ∀ q fb, fs q = some fb → fb.length < 9223372036854775808) :
    is_checksum_valid md5hex keyBytes fs artifact = .ok false :=
  valid_load_str_os hl
    (by rw [calc_arr]; exact calcLoop_missing md5hex fs paths keyBytes p hp hmiss hsz)

theorem c6_witness :
    is_checksum_valid (fun _ => []) [] (fun _ => none)
      (some (dumpsPair [[97]] [100] ++
        (packLE8 (dumpsPair [[97]] [100]).length ++ TAGbytes))) = .ok false :=
  c6_missing_dependency_false (fun _ => []) [] (fun _ => none) _ [[97]] [100] [97]
    rfl (by simp) rfl (fun _ _ h => Option.noConfusion h)

/-- C7 counterexample: when the second trailer's file set contains a lone
high surrogate immediately followed by a lone low surrogate, reading after
two sequential appends does not return the second written pair exactly —
the JSON decoder recombines the pair of escapes into one code point. -/
theorem c7_surrogate_pair_counterexample :
    ((_save_checksum_trailer [] [[97]] [49]).bind
      (fun c1 => _save_checksum_trailer c1 [[55357, 56832]] [50])).bind
      (fun c2 => _load_checksum_trailer (some c2)) ≠
      .ok (some (.arr [.str [55357, 56832]], .str [50])) := by
  intro h
  rw [show ((_save_checksum_trailer [] [[97]] [49]).bind
      (fun c1 => _save_checksum_trailer c1 [[55357, 56832]] [50])).bind
      (fun c2 => _load_checksum_trailer (some c2)) =
      .ok (some (.arr [.str [128512]], .str [50])) from rfl] at h
  simp at h

/-- C7 (amended): after two sequential trailer appends to the same
artifact, reading observes only the last-written trailer — the earlier one
is inert bytes before it — and returns exactly the second pair provided
its strings contain no high-surrogate-then-low-surrogate code point pair
(true of all real paths) and both payloads fit the signed 64-bit length
field. -/
theorem c7_last_writer_wins (base : ByteStr) (deps1 : List PyStr) (d1 : PyStr)
    (deps2 : List PyStr) (d2 : PyStr)
    (hlen1 : (dumpsPair deps1 d1).length < 9223372036854775808)
    (hall2 : ∀ d ∈ deps2, validStrB d = true ∧ goodStrB d = true)
    (hd2 : validStrB d2 = true) (hgd2 : goodStrB d2 = true)
    (hlen2 : (dumpsPair deps2 d2).length < 9223372036854775808) :
    ∃ c1 c2, _save_checksum_trailer base deps1 d1 = .ok c1 ∧
      _save_checksum_trailer c1 deps2 d2 = .ok c2 ∧
      _load_checksum_trailer (some c2) =
        .ok (some (.arr (deps2.map JValue.str), .str d2)) :=
  ⟨_, _, save_ok base hlen1, save_ok _ hlen2,
    load_trailer_append _ deps2 d2 hall2 hd2 hgd2 hlen2⟩

theorem c7_witness :
    ∃ c1 c2, _save_checksum_trailer [] [[97]] [49] = .ok c1 ∧
      _save_checksum_trailer c1 [[98]] [50] = .ok c2 ∧
      _load_checksum_trailer (some c2) =
        .ok (some (.arr [.str [98]], .str [50])) :=
  c7_last_writer_wins [] [[97]] [49] [[98]] [50]
    (by decide) (by decide) (by decide) (by decide) (by decide)

/-- C8: the digest depends only on the environment key and the contents of
the listed files in list order: two filesystems agreeing on every listed
path (e.g. two runs at different times with identical file contents) yield
the identical checksum computation, regardless of anything else on the
filesystem. -/
theorem c8_digest_determinism (md5hex : ByteStr → PyStr) (keyBytes : ByteStr)
    (fs1 fs2 : FS) (paths : List PyStr) (h : ∀ p ∈ paths, fs1 p = fs2 p) :
    _calc_cur_checksum md5hex keyBytes fs1 (.arr (paths.map JValue.str)) =
      _calc_cur_checksum md5hex keyBytes fs2 (.arr (paths.map JValue.str)) := by
  rw [calc_arr, calc_arr]
  exact calcLoop_congr md5hex fs1 fs2 paths keyBytes h

theorem c8_witness :
    _calc_cur_checksum (fun l => l) [3]
      (fun q => if q = [97] then some [5] else some [9]) (.arr [.str [97]]) =
    _calc_cur_checksum (fun l => l) [3]
      (fun q => if q = [97] then some [5] else none) (.arr [.str [97]]) :=
  c8_digest_determinism (fun l => l) [3]
    (fun q => if q = [97] then some [5] else some [9])
    (fun q => if q = [97] then some [5] else none) [[97]] (by decide)

/-- C9: the byte stream fed to the hash for the file-content part — per
file an 8-byte big-endian length prefix, the raw bytes, then the constant
tag — is injective over sequences of file contents (lengths within the
signed 64-bit range `struct.pack(">q", ...)` accepts): distinct sequences
produce distinct streams, so concatenation ambiguity cannot occur. -/
theorem c9_hash_input_injective : ∀ (cs1 cs2 : List ByteStr),
    (∀ b ∈ cs1, b.length < 9223372036854775808) →
    (∀ b ∈ cs2, b.length < 9223372036854775808) →
    fileChunks cs1 = fileChunks cs2 → cs1 = cs2 := by
  intro cs1
  induction cs1 with
  | nil =>
    intro cs2 _ _ he
    cases cs2 with
    | nil => rfl
    | cons b t =>
      rw [show fileChunks [] = [] from rfl, fileChunks_cons] at he
      simp [packBE8] at he
  | cons a t1 ih =>
    intro cs2 h1 h2 he
    cases cs2 with
    | nil =>
      rw [show fileChunks [] = [] from rfl, fileChunks_cons] at he
      simp [packBE8] at he
    | cons b t2 =>
      rw [fileChunks_cons, fileChunks_cons] at he
      obtain ⟨hp, hrest⟩ := List.append_inj he rfl
      have hab : a.length = b.length := by
        have ha := h1 a (List.mem_cons_self _ _)
        have hb := h2 b (List.mem_cons_self _ _)
        exact packBE8_inj (by omega) (by omega) hp
      obtain ⟨hcontents, hrest2⟩ := List.append_inj hrest hab
      obtain ⟨-, hchunks⟩ := List.append_inj hrest2 rfl
      rw [hcontents,
        ih t2 (fun x hx => h1 x (List.mem_cons_of_mem _ hx))
          (fun x hx => h2 x (List.mem_cons_of_mem _ hx)) hchunks]

theorem c9_witness : ([[7], []] : List ByteStr) = [[7], []] :=
  c9_hash_input_injective [[7], []] [[7], []] (by decide) (by decide) rfl

/-- C10 counterexample: the payload serialization is total, but a path
string holding a lone high surrogate immediately followed by a lone low
surrogate does not decode back to itself — the decoder recombines the two
escapes into the single astral code point, so the decoded pair differs
from the original. -/
theorem c10_surrogate_pair_counterexample :
    loads (dumpsPair [[55357, 56832]] [121]) ≠
      some (.arr [.arr [.str [55357, 56832]], .str [121]]) := by
  intro h
  rw [show loads (dumpsPair [[55357, 56832]] [121]) =
    some (.arr [.arr [.str [128512]], .str [121]]) from rfl] at h
  simp at h

/-- C10 (amended): for every file set and digest string the trailer
payload serialization never raises — `json.dumps(..., ensure_ascii=True)`
escapes every non-ASCII code point, so the subsequent ASCII encoding
always succeeds — and the payload bytes decode back to the original pair
provided no string contains a high-surrogate code point immediately
followed by a low-surrogate code point (adjacent pairs are recombined by
the decoder; all strings of Unicode scalar values qualify). -/
theorem c10_payload_ascii_roundtrip (deps : List PyStr) (digest : PyStr)
    (hall : ∀ d ∈ deps, validStrB d = true ∧ goodStrB d = true)
    (hd : validStrB digest = true) (hgd : goodStrB digest = true) :
    pyEncodeAscii (dumpsPair deps digest) = .ok (dumpsPair deps digest) ∧
    loads (dumpsPair deps digest) =
      some (.arr [.arr (deps.map JValue.str), .str digest]) :=
  ⟨pyEncodeAscii_dumpsPair deps digest, loads_dumpsPair hall hd hgd⟩

theorem c10_witness :
    pyEncodeAscii (dumpsPair [[97, 8364]] [104]) = .ok (dumpsPair [[97, 8364]] [104]) ∧
    loads (dumpsPair [[97, 8364]] [104]) =
      some (.arr [.arr [.str [97, 8364]], .str [104]]) :=
  c10_payload_ascii_roundtrip [[97, 8364]] [104] (by decide) (by decide) (by decide)
